import Mathlib

/-!
Verification development for the truck2jbeam converter (rig.py, rig_common.py,
truck2jbeam.py).  The Python data model and the algorithms under scrutiny are
shallowly embedded here: Python floats are modelled as exact rationals, Python
object mutation as pure list transformations, and Python dict/list lookups as
name-based searches over the node list.  Mesh/DAE processing, the GUI, the
downloader and the file I/O layers are out of scope.
-/

/-- A structural node (class Node in rig_common.py).  The Python field
override_mass is False until the parser sets it to a positive load weight
(rig.py, set_node_defaults handling: only when last_loadweight is strictly
positive), so it is modelled as an Option.  All other fields keep their
source names and defaults. -/
structure RNode where
  name : String
  x : ℚ
  y : ℚ
  z : ℚ
  fixed : Bool := false
  mass : ℚ := 10
  load_bearer : Bool := false
  override_mass : Option ℚ := none
  coupler : Bool := false
  collision : Bool := true
  selfCollision : Bool := false
  frictionCoef : ℚ := 1
  group : List String := []
deriving DecidableEq

/-- A beam (class Beam in rig_common.py).  The derived fields beamLimitSpring
and beamLimitDamp are omitted: no modelled code path reads them. -/
structure RBeam where
  id1 : String
  id2 : String
  beamSpring : ℚ
  beamDamp : ℚ
  beamStrength : ℚ
  beamDeform : ℚ
  beamShortBound : ℚ := 1
  beamLongBound : ℚ := 1
  beamPrecompression : ℚ := 1
  beamDampRebound : Bool := false
  type : String := "NORMAL"
  breakGroup : String := ""
deriving DecidableEq

/-- A flexbody (class Flexbody in rig_common.py); only the fields read by the
modelled code paths (group assignment and duplicate-mesh renaming) are kept,
plus the geometric offsets of the constructor. -/
structure RFlexbody where
  mesh : String
  refnode : String
  xnode : String
  ynode : String
  offsetX : ℚ := 0
  offsetY : ℚ := 0
  offsetZ : ℚ := 0
  rotX : ℚ := 0
  rotY : ℚ := 0
  rotZ : ℚ := 0
  forset_nodes : List String := []
  group_name : String := ""
deriving DecidableEq

/-- A prop (class Prop in rig_common.py), same field selection as RFlexbody. -/
structure RProp where
  mesh : String
  refnode : String
  xnode : String
  ynode : String
  offsetX : ℚ := 0
  offsetY : ℚ := 0
  offsetZ : ℚ := 0
  rotX : ℚ := 0
  rotY : ℚ := 0
  rotZ : ℚ := 0
  group_name : String := ""
deriving DecidableEq

/-- A triangle surface (class Triangle in rig_common.py). -/
structure Triangle where
  node1 : String
  node2 : String
  node3 : String
  surface_type : String := "collision"
  material : String := "default"
  drag_coefficient : ℚ := 0
  lift_coefficient : ℚ := 0
  options : List String := []
deriving DecidableEq

/-- A quad surface (class Quad in rig_common.py). -/
structure Quad where
  node1 : String
  node2 : String
  node3 : String
  node4 : String
  surface_type : String := "collision"
  material : String := "default"
  drag_coefficient : ℚ := 0
  lift_coefficient : ℚ := 0
  options : List String := []
deriving DecidableEq

/-- Quad.to_triangles (rig_common.py): split across the diagonal into
(1,2,3) and (1,3,4); material, coefficients and a copy of the options list
are inherited (list values are immutable here, so the Python .copy() is the
identity). -/
def Quad.to_triangles (q : Quad) : List Triangle :=
  [{ node1 := q.node1, node2 := q.node2, node3 := q.node3,
     surface_type := q.surface_type, material := q.material,
     drag_coefficient := q.drag_coefficient,
     lift_coefficient := q.lift_coefficient, options := q.options },
   { node1 := q.node1, node2 := q.node3, node3 := q.node4,
     surface_type := q.surface_type, material := q.material,
     drag_coefficient := q.drag_coefficient,
     lift_coefficient := q.lift_coefficient, options := q.options }]

/-- The aggregate Rig (class Rig in rig.py); only the fields the modelled
pipeline stages read or write. -/
structure Rig where
  name : String := "Untitled Rig Class"
  nodes : List RNode := []
  beams : List RBeam := []
  flexbodies : List RFlexbody := []
  props : List RProp := []
  minimass : ℚ := 50
  dry_weight : ℚ := 10000
  load_weight : ℚ := 10000
  parse_errors : List String := []
  parse_warnings : List String := []
deriving DecidableEq

/-- vector_distance (rig.py): despite the name, the SQUARED distance between
two 3D points. -/
def vector_distance (x1 y1 z1 x2 y2 z2 : ℚ) : ℚ :=
  let nx := x2 - x1
  let ny := y2 - y1
  let nz := z2 - z1
  nx * nx + ny * ny + nz * nz

/-- The first node carrying a given name; Python uses
next((x for x in self.nodes if x.name == b.id1), None). -/
def findNode (ns : List RNode) (nm : String) : Option RNode :=
  ns.find? (fun n => n.name = nm)

/-- Apply f to the first node named nm, leave the rest unchanged.  This is how
mutating the object returned by the next(...) search, or by a dict lookup on
unique names, acts on the node list. -/
def modifyFirstByName (nm : String) (f : RNode → RNode) : List RNode → List RNode
  | [] => []
  | n :: t => if n.name = nm then f n :: t else n :: modifyFirstByName nm f t

/-- Number of load-bearing nodes (the numloadnodes counter of
calculate_masses). -/
def countLoadNodes (ns : List RNode) : Nat :=
  (ns.filter (fun n => n.load_bearer)).length

/-- Warning text of the unreachable fallback branch of calculate_masses. -/
def warnNoLoadBearing : String := "No load-bearing nodes found, using minimum mass"

/-- Error text recorded when the rig has no nodes. -/
def msgNoNodes : String := "Cannot calculate masses: no nodes found"

/-- Error text recorded when the computed density is zero. -/
def msgNoValidBeams : String := "Cannot calculate masses: no valid beams found"

/-- One step of the mass-initialization loop of calculate_masses (rig.py):
the new node together with the warnings the step records. -/
def initNodeMass (numload : Nat) (lw minim : ℚ) (n : RNode) : RNode × List String :=
  if n.load_bearer = false then ({ n with mass := 0 }, [])
  else
    match n.override_mass with
    | none =>
        if 0 < numload then ({ n with mass := lw / (numload : ℚ) }, [])
        else ({ n with mass := minim }, [warnNoLoadBearing])
    | some m => ({ n with mass := m }, [])

/-- The whole mass-initialization loop: updated nodes and, in node order, the
warnings recorded along the way. -/
def initMasses (numload : Nat) (lw minim : ℚ) (ns : List RNode) :
    List RNode × List String :=
  (ns.map (fun n => (initNodeMass numload lw minim n).1),
   (ns.map (fun n => (initNodeMass numload lw minim n).2)).flatten)

/-- Squared length of a beam, when both endpoints resolve. -/
def beamSqLen (ns : List RNode) (b : RBeam) : Option ℚ :=
  match findNode ns b.id1, findNode ns b.id2 with
  | some n1, some n2 => some (vector_distance n1.x n1.y n1.z n2.x n2.y n2.z)
  | _, _ => none

/-- The avg_lin_dens accumulator of calculate_masses: sum of SQUARED beam
lengths over non-virtual beams whose endpoints both resolve. -/
def densityOf (ns : List RNode) (bs : List RBeam) : ℚ :=
  bs.foldl
    (fun acc b =>
      if b.type ≠ "VIRTUAL" then
        match beamSqLen ns b with
        | some d => acc + d
        | none => acc
      else acc) 0

/-- Warnings recorded by the density loop for non-virtual beams with a missing
endpoint. -/
def missingBeamWarnings (ns : List RNode) (bs : List RBeam) : List String :=
  bs.foldl
    (fun ws b =>
      if b.type ≠ "VIRTUAL" then
        match beamSqLen ns b with
        | some _ => ws
        | none => ws ++ ["Beam references missing nodes: " ++ b.id1 ++ ", " ++ b.id2]
      else ws) []

/-- The weight-distribution step for one beam: both resolved endpoints gain
squared_length * dry_weight / density / 2.  The Python code mutates the first
node object matching each id. -/
def distributeBeam (dw dens : ℚ) (ns : List RNode) (b : RBeam) : List RNode :=
  if b.type ≠ "VIRTUAL" then
    match findNode ns b.id1, findNode ns b.id2 with
    | some n1, some n2 =>
        let half := vector_distance n1.x n1.y n1.z n2.x n2.y n2.z * dw / dens / 2
        modifyFirstByName b.id2 (fun n => { n with mass := n.mass + half })
          (modifyFirstByName b.id1 (fun n => { n with mass := n.mass + half }) ns)
    | _, _ => ns
  else ns

/-- The whole weight-distribution loop of calculate_masses. -/
def distributeMasses (dw dens : ℚ) (ns : List RNode) (bs : List RBeam) : List RNode :=
  bs.foldl (distributeBeam dw dens) ns

/-- The minimum-mass clamp at the end of calculate_masses. -/
def clampNode (minim : ℚ) (n : RNode) : RNode :=
  if n.mass < minim then { n with mass := minim } else n

/-- The final sanity warning of calculate_masses: total mass further than 10%
from dry_weight + load_weight.  The Python message interpolates the two
numbers; the text is elided here since nothing reads it back. -/
def massDiffWarning (ns : List RNode) (dw lw : ℚ) : List String :=
  let total := (ns.map (fun n => n.mass)).sum
  let expected := dw + lw
  if |total - expected| > expected * (1 / 10) then
    ["Total calculated mass differs significantly from expected"]
  else []

/-- Nodes and warnings after the initialization loop, as run by
calculate_masses (the load count is taken over the same node list). -/
def massInitPair (r : Rig) : List RNode × List String :=
  initMasses (countLoadNodes r.nodes) r.load_weight r.minimass r.nodes

/-- Node list after mass initialization. -/
def massInit (r : Rig) : List RNode := (massInitPair r).1

/-- The density calculate_masses works with (computed over the initialized
node list, whose names and positions agree with the originals). -/
def massDensity (r : Rig) : ℚ := densityOf (massInit r) r.beams

/-- Node list after the weight-distribution loop, before the minimum-mass
clamp. -/
def massDistributed (r : Rig) : List RNode :=
  distributeMasses r.dry_weight (massDensity r) (massInit r) r.beams

/-- Rig.calculate_masses (rig.py).  Every Python path returns normally: the
no-node and zero-density cases append to parse_errors and return early, they
do not raise. -/
def Rig.calculate_masses (r : Rig) : Rig :=
  if r.nodes.isEmpty then
    { r with parse_errors := r.parse_errors ++ [msgNoNodes] }
  else if massDensity r = 0 then
    { r with nodes := massInit r,
             parse_warnings := r.parse_warnings ++ (massInitPair r).2
               ++ missingBeamWarnings (massInit r) r.beams,
             parse_errors := r.parse_errors ++ [msgNoValidBeams] }
  else
    let final := (massDistributed r).map (clampNode r.minimass)
    { r with nodes := final,
             parse_warnings := r.parse_warnings ++ (massInitPair r).2
               ++ missingBeamWarnings (massInit r) r.beams
               ++ massDiffWarning final r.dry_weight r.load_weight }

/-- Specification-side description of the initialized mass of a node (C1):
zero for non-load-bearing nodes, the override when set, otherwise the load
weight split over the load-bearing nodes. -/
def initMassSpec (r : Rig) (n : RNode) : ℚ :=
  if n.load_bearer = false then 0
  else
    match n.override_mass with
    | some m => m
    | none => r.load_weight / (countLoadNodes r.nodes : ℚ)

/-- Specification-side contribution of one beam to the node named nm during
weight distribution (C1). -/
def beamShare (ns : List RNode) (b : RBeam) (nm : String) (dw dens : ℚ) : ℚ :=
  if b.type ≠ "VIRTUAL" then
    match findNode ns b.id1, findNode ns b.id2 with
    | some n1, some n2 =>
        let half := vector_distance n1.x n1.y n1.z n2.x n2.y n2.z * dw / dens / 2
        (if b.id1 = nm then half else 0) + (if b.id2 = nm then half else 0)
    | _, _ => 0
  else 0

/-- A node with its mass field zeroed; two nodes with the same eraseMass image
agree on every field calculate_masses reads. -/
def eraseMass (n : RNode) : RNode := { n with mass := 0 }

/-- Python str.lower for the ASCII identifiers this converter handles,
written character by character so that it evaluates inside the kernel. -/
def strLower (s : String) : String := String.mk (s.data.map Char.toLower)

/-- Index of the last occurrence of a character in a character list. -/
def lastIdxOf (c : Char) (cs : List Char) : Option Nat :=
  (cs.foldl (fun st ch => (st.1 + 1, if ch == c then some st.1 else st.2))
    ((0 : Nat), (none : Option Nat))).2

/-- os.path.splitext for POSIX paths: the extension starts at the last dot,
unless every character between the last path separator and that dot is itself
a dot (leading dots of the basename never open an extension). -/
def splitext (p : String) : String × String :=
  let cs := p.data
  match lastIdxOf '.' cs with
  | none => (p, "")
  | some d =>
      let sepIdx := lastIdxOf '/' cs
      let start : Nat := match sepIdx with | none => 0 | some k => k + 1
      let dotAfterSep : Bool := match sepIdx with | none => true | some k => decide (k < d)
      if dotAfterSep && ((cs.drop start).take (d - start)).any (fun ch => ch != '.') then
        (String.mk (cs.take d), String.mk (cs.drop d))
      else (p, "")

/-- Decimal rendering zero-padded to at least three digits (Python 03d). -/
def padZero3 (n : Nat) : String :=
  let s := toString n
  if s.length < 3 then String.mk (List.replicate (3 - s.length) '0') ++ s else s

/-- Rig._generate_unique_mesh_name: insert a 1-based _NNN suffix (the counter
is 0-based) immediately before the extension.  The first three cases are
hardcoded in the source and agree with the general format. -/
def genUniqueMeshName (original : String) (counter : Nat) : String :=
  let ne := splitext original
  let suffix :=
    if counter = 0 then "_001"
    else if counter = 1 then "_002"
    else if counter = 2 then "_003"
    else "_" ++ padZero3 (counter + 1)
  ne.1 ++ suffix ++ ne.2

/-- Case-insensitive occurrence count of a (lowercased) key over a mesh-name
list, as built by the first pass of Rig._resolve_duplicate_mesh_names. -/
def meshUsage (ms : List String) (key : String) : Nat :=
  (ms.filter (fun m => strLower m = key)).length

/-- One step of the renaming pass of Rig._resolve_duplicate_mesh_names: the
per-key counter map together with the output names so far. -/
def resolveStep (usage : String → Nat) (st : (String → Nat) × List String)
    (m : String) : (String → Nat) × List String :=
  let key := strLower m
  if 1 < usage key then
    let c := st.1 key
    (fun k => if k = key then c + 1 else st.1 k, st.2 ++ [genUniqueMeshName m c])
  else (st.1, st.2 ++ [m])

/-- The renaming pass over a full mesh-name list (flexbody meshes followed by
prop meshes, in collection order). -/
def resolveMeshNameList (ms : List String) : List String :=
  (ms.foldl (resolveStep (meshUsage ms)) (fun _ => 0, [])).2

/-- Specification-side description of what the resolver does to the entry at
index i: entries whose case-folded name is unique stay, every other entry
gets the suffix numbered by its 1-based occurrence rank. -/
def resolveSpecEntry (ms : List String) (i : Nat) (m : String) : String :=
  if 1 < meshUsage ms (strLower m) then
    genUniqueMeshName m (meshUsage (ms.take i) (strLower m))
  else m

/-- Rig._resolve_duplicate_mesh_names lifted to the rig: flexbodies are
enumerated before props and each element receives its renamed mesh. -/
def Rig.resolve_duplicate_mesh_names (r : Rig) : Rig :=
  let ms := r.flexbodies.map (fun f => f.mesh) ++ r.props.map (fun p => p.mesh)
  let rs := resolveMeshNameList ms
  { r with
    flexbodies := r.flexbodies.zipWith (fun f m => { f with mesh := m })
      (rs.take r.flexbodies.length),
    props := r.props.zipWith (fun p m => { p with mesh := m })
      (rs.drop r.flexbodies.length) }

/-- Suffix test on character lists (the model of str.endswith). -/
def listEndsWith (cs suffix : List Char) : Bool :=
  decide (suffix.length ≤ cs.length) &&
    cs.drop (cs.length - suffix.length) == suffix

/-- ASCII word character, the model of the regex class backslash-w for the
lowercased ASCII mesh names this converter handles. -/
def isWordChar (c : Char) : Bool := c.isAlphanum || c == '_'

/-- Collapse every run of underscores to a single underscore; the flag records
whether the previous kept character was an underscore. -/
def squeezeUnderscoresAux : Bool → List Char → List Char
  | _, [] => []
  | prev, c :: t =>
      if c == '_' then
        if prev then squeezeUnderscoresAux true t
        else '_' :: squeezeUnderscoresAux true t
      else c :: squeezeUnderscoresAux false t

/-- The group-name base derivation shared by Flexbody.get_group_name and
Prop.get_group_name: lowercase, strip a .mesh or .dae extension, replace
non-word characters by underscores, squeeze underscore runs, strip leading
and trailing underscores. -/
def deriveGroupBase (mesh : String) : String :=
  let lowered := (strLower mesh).data
  let stripped :=
    if listEndsWith lowered ".mesh".data then lowered.take (lowered.length - 5)
    else if listEndsWith lowered ".dae".data then lowered.take (lowered.length - 4)
    else lowered
  let cs := stripped.map (fun c => if isWordChar c then c else '_')
  let cs := squeezeUnderscoresAux false cs
  let cs := ((cs.dropWhile (fun c => c == '_')).reverse.dropWhile
    (fun c => c == '_')).reverse
  String.mk cs

/-- Flexbody.get_group_name (rig_common.py). -/
def RFlexbody.get_group_name (fb : RFlexbody) : String :=
  if fb.group_name ≠ "" then fb.group_name else deriveGroupBase fb.mesh ++ "_flexbody"

/-- Prop.get_group_name (rig_common.py). -/
def RProp.get_group_name (p : RProp) : String :=
  if p.group_name ≠ "" then p.group_name else deriveGroupBase p.mesh ++ "_prop"

/-- Membership test of a name in the node map built by
Rig._assign_flexbody_groups; under the documented invariant that node names
are unique it coincides with the first-match search. -/
def nodeExists (ns : List RNode) (nm : String) : Bool := (findNode ns nm).isSome

/-- Append the group name to a node unless it already carries it. -/
def addGroupToNode (g : String) (n : RNode) : RNode :=
  if g ∈ n.group then n else { n with group := n.group ++ [g] }

/-- Squared distance from a node to a point.  The Python code compares
Euclidean distances (math.sqrt of this value) against 2 times the largest
triad distance; since the square root is monotone on nonnegative rationals,
dist less-or-equal 2*maxdist holds iff sqdist less-or-equal 4*maxsqdist, which
is the comparison used below. -/
def sqDistToPoint (n : RNode) (cx cy cz : ℚ) : ℚ :=
  (n.x - cx) * (n.x - cx) + (n.y - cy) * (n.y - cy) + (n.z - cz) * (n.z - cz)

/-- Rig._find_flexbody_nodes: centroid of the triad, search radius twice the
largest triad distance, candidates within the radius, preference for nodes in
fewer than two groups, fallback to all candidates when fewer than ten
preferred nodes remain.  Dictionary lookups on node names are modelled by the
first-match search (names are unique by the data-model invariant). -/
def findFlexbodyNodes (ns : List RNode) (fb : RFlexbody) : List String :=
  match findNode ns fb.refnode, findNode ns fb.xnode, findNode ns fb.ynode with
  | some rn, some xn, some yn =>
      let cx := (rn.x + xn.x + yn.x) / 3
      let cy := (rn.y + xn.y + yn.y) / 3
      let cz := (rn.z + xn.z + yn.z) / 3
      let maxSq := max (max (max 0 (sqDistToPoint rn cx cy cz))
        (sqDistToPoint xn cx cy cz)) (sqDistToPoint yn cx cy cz)
      let candidate_nodes :=
        (ns.filter (fun n => sqDistToPoint n cx cy cz ≤ 4 * maxSq)).map
          (fun n => n.name)
      let flexbody_nodes := candidate_nodes.filter (fun nm =>
        match findNode ns nm with
        | some n => decide (n.group.length < 2)
        | none => false)
      if flexbody_nodes.length < 10 then candidate_nodes else flexbody_nodes
  | _, _, _ => []

/-- Specification-side candidate set of C7: names of the rig nodes within the
doubled triad radius of the triad centroid (squared-distance comparison). -/
def spatialCandidates (ns : List RNode) (rn xn yn : RNode) : List String :=
  let cx := (rn.x + xn.x + yn.x) / 3
  let cy := (rn.y + xn.y + yn.y) / 3
  let cz := (rn.z + xn.z + yn.z) / 3
  let maxSq := max (max (max 0 (sqDistToPoint rn cx cy cz))
    (sqDistToPoint xn cx cy cz)) (sqDistToPoint yn cx cy cz)
  (ns.filter (fun n => sqDistToPoint n cx cy cz ≤ 4 * maxSq)).map (fun n => n.name)

/-- Specification-side preferred subset of C7: candidates currently in fewer
than two groups. -/
def preferredSubset (ns : List RNode) (cands : List String) : List String :=
  cands.filter (fun nm =>
    match findNode ns nm with
    | some n => decide (n.group.length < 2)
    | none => false)

/-- One assignment action: give the group name to the node called nm, if such
a node exists. -/
def assignGroupStep (g : String) (acc : List RNode) (nm : String) : List RNode :=
  modifyFirstByName nm (addGroupToNode g) acc

/-- Processing of a single flexbody inside Rig._assign_flexbody_groups: the
triad names that resolve, the forset names, and, only when the forset list is
empty, the spatial expansion.  The Python iteration over set(flexbody_nodes)
is modelled by iterating over the deduplicated list; every action touches a
distinct node, so the set iteration order is immaterial. -/
def assignOneFlexbody (ns : List RNode) (fb : RFlexbody) : List RNode :=
  let g := fb.get_group_name
  let refs := [fb.refnode, fb.xnode, fb.ynode].filter (fun nm => nodeExists ns nm)
  let base := refs ++ fb.forset_nodes
  let allNames :=
    if fb.forset_nodes.isEmpty then base ++ findFlexbodyNodes ns fb else base
  allNames.dedup.foldl (assignGroupStep g) ns

/-- Processing of a single prop inside Rig._assign_flexbody_groups: only the
triad names receive the group. -/
def assignOneProp (ns : List RNode) (p : RProp) : List RNode :=
  [p.refnode, p.xnode, p.ynode].foldl (assignGroupStep p.get_group_name) ns

/-- Rig._assign_flexbody_groups: resolve duplicate mesh names first, then give
every flexbody and every prop its group membership. -/
def Rig.assign_flexbody_groups (r : Rig) : Rig :=
  let r := r.resolve_duplicate_mesh_names
  let ns := r.flexbodies.foldl assignOneFlexbody r.nodes
  let ns := r.props.foldl assignOneProp ns
  { r with nodes := ns }

/-- Stable insertion of a beam into a list already sorted by descending
beamSpring: the new beam goes after every beam whose spring is at least its
own, exactly the relative order Python's stable sort with key=beamSpring and
reverse=True produces. -/
def insertBeamDesc (b : RBeam) : List RBeam → List RBeam
  | [] => [b]
  | y :: t => if b.beamSpring ≤ y.beamSpring then y :: insertBeamDesc b t
              else b :: y :: t

/-- The beam order produced by self.beams.sort(key=lambda x: x.beamSpring,
reverse=True) at the top of Rig.to_jbeam: a stable sort by descending
beamSpring. -/
def pySortBeamsDesc (bs : List RBeam) : List RBeam :=
  bs.foldl (fun acc b => insertBeamDesc b acc) []

/-- One emitted line of the beams section: the column header, a delta-encoded
property marker, or a beam row.  Marker payloads are kept as structured values
rather than rendered text. -/
inductive BeamRow where
  | tableHeader : BeamRow
  | markerDampRebound (v : Bool) : BeamRow
  | markerType (t : String) : BeamRow
  | markerSpring (v : ℚ) : BeamRow
  | markerDamp (v : ℚ) : BeamRow
  | markerDeform (v : ℚ) : BeamRow
  | markerStrength (v : ℚ) : BeamRow
  | markerShortBound (v : ℚ) : BeamRow
  | markerLongBound (v : ℚ) : BeamRow
  | markerPrecomp (v : ℚ) : BeamRow
  | markerBreakGroup (v : String) : BeamRow
  | beamLine (id1 id2 : String) : BeamRow
deriving DecidableEq

/-- The last-written values tracked by the beams-section writer of
Rig.to_jbeam. -/
structure BeamEmitState where
  damprebound : Bool
  btype : String
  spring : ℚ
  damp : ℚ
  deform : ℚ
  strength : ℚ
  shortbound : ℚ
  longbound : ℚ
  precomp : ℚ
  breakgroup : String
deriving DecidableEq

/-- Initial last-written values of the beams-section writer. -/
def initBeamEmitState : BeamEmitState :=
  { damprebound := false, btype := "NONEXISTANT", spring := -1, damp := -1,
    deform := -1, strength := -1, shortbound := -1, longbound := -1,
    precomp := -1, breakgroup := "" }

/-- Emission of one beam: a marker for every property that changed since the
last row, in source order, followed by the beam row itself. -/
def emitOneBeam (st : BeamEmitState) (b : RBeam) : BeamEmitState × List BeamRow :=
  let s1 := if b.beamDampRebound ≠ st.damprebound
    then ({ st with damprebound := b.beamDampRebound },
          [BeamRow.markerDampRebound b.beamDampRebound])
    else (st, [])
  let s2 := if b.type ≠ s1.1.btype
    then ({ s1.1 with btype := b.type }, [BeamRow.markerType b.type])
    else (s1.1, [])
  let s3 := if b.beamSpring ≠ s2.1.spring
    then ({ s2.1 with spring := b.beamSpring }, [BeamRow.markerSpring b.beamSpring])
    else (s2.1, [])
  let s4 := if b.beamDamp ≠ s3.1.damp
    then ({ s3.1 with damp := b.beamDamp }, [BeamRow.markerDamp b.beamDamp])
    else (s3.1, [])
  let s5 := if b.beamDeform ≠ s4.1.deform
    then ({ s4.1 with deform := b.beamDeform }, [BeamRow.markerDeform b.beamDeform])
    else (s4.1, [])
  let s6 := if b.beamStrength ≠ s5.1.strength
    then ({ s5.1 with strength := b.beamStrength },
          [BeamRow.markerStrength b.beamStrength])
    else (s5.1, [])
  let s7 := if b.beamShortBound ≠ s6.1.shortbound
    then ({ s6.1 with shortbound := b.beamShortBound },
          [BeamRow.markerShortBound b.beamShortBound])
    else (s6.1, [])
  let s8 := if b.beamLongBound ≠ s7.1.longbound
    then ({ s7.1 with longbound := b.beamLongBound },
          [BeamRow.markerLongBound b.beamLongBound])
    else (s7.1, [])
  let s9 := if b.beamPrecompression ≠ s8.1.precomp
    then ({ s8.1 with precomp := b.beamPrecompression },
          [BeamRow.markerPrecomp b.beamPrecompression])
    else (s8.1, [])
  let s10 := if b.breakGroup ≠ s9.1.breakgroup
    then ({ s9.1 with breakgroup := b.breakGroup },
          [BeamRow.markerBreakGroup b.breakGroup])
    else (s9.1, [])
  (s10.1, s1.2 ++ s2.2 ++ s3.2 ++ s4.2 ++ s5.2 ++ s6.2 ++ s7.2 ++ s8.2 ++ s9.2
    ++ s10.2 ++ [BeamRow.beamLine b.id1 b.id2])

/-- The rows of the beams section of Rig.to_jbeam, in emission order; the
section (with its column-header row) is written only when the rig has beams. -/
def beamsSectionRows (bs : List RBeam) : List BeamRow :=
  if bs.isEmpty then []
  else
    BeamRow.tableHeader ::
      (bs.foldl (fun st b =>
        let er := emitOneBeam st.1 b
        (er.1, st.2 ++ er.2)) (initBeamEmitState, ([] : List BeamRow))).2

/-- The beam rows of an emitted row list, as endpoint-name pairs. -/
def beamRowIds (rows : List BeamRow) : List (String × String) :=
  rows.filterMap (fun row =>
    match row with
    | BeamRow.beamLine a b => some (a, b)
    | _ => none)

/-- The fragments of the serialized document this development models: the
information block carries the rig name, and the beams section its rows. -/
structure JBeamOutput where
  name : String
  beamRows : List BeamRow
deriving DecidableEq

/-- Rig.to_jbeam (rig.py): sort the beams in place by descending beamSpring,
assign flexbody groups, then write the document.  The emitted fragments are
returned together with the mutated rig. -/
def Rig.to_jbeam (r : Rig) : JBeamOutput × Rig :=
  let r1 := { r with beams := pySortBeamsDesc r.beams }
  let r2 := r1.assign_flexbody_groups
  ({ name := r2.name, beamRows := beamsSectionRows r2.beams }, r2)

/-- The post-parse stages of convert_single_file (truck2jbeam.py): masses are
calculated and the output is written unconditionally, whatever
calculate_masses recorded. -/
def convertAfterParse (r : Rig) : JBeamOutput × Rig :=
  (r.calculate_masses).to_jbeam

/-- A beam with the sticky parser defaults of from_file, used by the concrete
examples below. -/
def exBeam (a b : String) (spring : ℚ) : RBeam :=
  { id1 := a, id2 := b, beamSpring := spring, beamDamp := 12000,
    beamStrength := 1000000, beamDeform := 400000 }

/-- A plain node at a position, used by the concrete examples below. -/
def exNode (nm : String) (px py pz : ℚ) : RNode :=
  { name := nm, x := px, y := py, z := pz }

/-- Concrete rig for C2: two beams appended softest-first, so the descending
spring sort reverses them. -/
def rigTwoBeams : Rig :=
  { name := "testrig",
    nodes := [exNode "n1" 0 0 0, exNode "n2" 1 0 0],
    beams := [exBeam "n1" "n2" 1000, exBeam "n2" "n1" 2000] }

/-- Concrete rig for C3: one node and no beams, so the computed density is
zero. -/
def rigNoBeams : Rig := { name := "testrig", nodes := [exNode "n1" 0 0 0] }

/-- Concrete rig for C4: one non-virtual beam whose endpoints coincide, so the
computed density is zero and the early return skips the minimum-mass clamp. -/
def rigZeroLengthBeam : Rig :=
  { name := "testrig",
    nodes := [exNode "n1" 0 0 0, exNode "n2" 0 0 0],
    beams := [exBeam "n1" "n2" 9000000] }

/-- Concrete rig for the mass-distribution witnesses: two nodes one unit
apart joined by one beam. -/
def rigUnitBeam : Rig :=
  { name := "testrig",
    nodes := [exNode "n1" 0 0 0, exNode "n2" 1 0 0],
    beams := [exBeam "n1" "n2" 9000000] }

/-- The first node of rigUnitBeam after calculate_masses: initialized to 0,
then given half of squared_length(1) * dry_weight(10000) / density(1). -/
def nodeUnitRes : RNode := { name := "n1", x := 0, y := 0, z := 0, mass := 5000 }

/-- Concrete nodes for the group-assignment witnesses. -/
def nodesGroupEx : List RNode :=
  [exNode "na" 0 0 0, exNode "nb" 1 0 0, exNode "nc" 0 1 0, exNode "nd" 5 5 5]

/-- A flexbody with an explicit forset list (C6 witness): its group goes to
the triad and the forset nodes only. -/
def fbForset : RFlexbody :=
  { mesh := "body.mesh", refnode := "na", xnode := "nb", ynode := "nc",
    forset_nodes := ["nd"], group_name := "grp" }

/-- A flexbody without a forset list (C7 witness): its group comes from the
spatial expansion. -/
def fbSpatial : RFlexbody :=
  { mesh := "body.mesh", refnode := "na", xnode := "nb", ynode := "nc",
    group_name := "grp" }

/-- C8: a quad decomposes into exactly the two triangles (1,2,3) and (1,3,4),
each inheriting the surface type, material, drag and lift coefficients and a
copy of the options list. -/
theorem quad_to_triangles_spec (q : Quad) :
    q.to_triangles.length = 2 ∧
    q.to_triangles.map (fun t => (t.node1, t.node2, t.node3)) =
      [(q.node1, q.node2, q.node3), (q.node1, q.node3, q.node4)] ∧
    ∀ t ∈ q.to_triangles,
      t.surface_type = q.surface_type ∧ t.material = q.material ∧
      t.drag_coefficient = q.drag_coefficient ∧
      t.lift_coefficient = q.lift_coefficient ∧ t.options = q.options := by
  refine ⟨rfl, rfl, ?_⟩
  intro t ht
  simp only [Quad.to_triangles, List.mem_cons, List.mem_singleton,
    List.not_mem_nil, or_false] at ht
  rcases ht with h | h <;> subst h <;> exact ⟨rfl, rfl, rfl, rfl, rfl⟩

/-- The load-bearing counter is positive as soon as the list contains a
load-bearing node. -/
lemma countLoadNodes_pos {ns : List RNode} {n : RNode} (hn : n ∈ ns)
    (hb : n.load_bearer = true) : 0 < countLoadNodes ns := by
  have hmem : n ∈ ns.filter (fun n => n.load_bearer) :=
    List.mem_filter.mpr ⟨hn, by simp [hb]⟩
  exact List.length_pos_of_mem hmem

/-- C10: the minimum-mass fallback of the initialization loop never fires,
because calculate_masses counts load-bearing nodes over the very list it then
initializes; consequently its warning is never recorded. -/
theorem init_fallback_unreachable :
    (∀ (ns : List RNode) (lw minim : ℚ),
      (initMasses (countLoadNodes ns) lw minim ns).2 = []) ∧
    ∀ r : Rig, warnNoLoadBearing ∉ (massInitPair r).2 := by
  have main : ∀ (ns : List RNode) (lw minim : ℚ),
      (initMasses (countLoadNodes ns) lw minim ns).2 = [] := by
    intro ns lw minim
    simp only [initMasses, List.flatten_eq_nil_iff, List.mem_map,
      forall_exists_index, and_imp, forall_apply_eq_imp_iff₂]
    intro n hn
    by_cases hb : n.load_bearer = true
    · have hpos := countLoadNodes_pos hn hb
      cases hov : n.override_mass with
      | none => simp [initNodeMass, hb, hov, hpos]
      | some m => simp [initNodeMass, hb, hov]
    · have hb' : n.load_bearer = false := by
        cases h : n.load_bearer
        · rfl
        · exact absurd h hb
      simp [initNodeMass, hb']
  refine ⟨main, ?_⟩
  intro r
  rw [massInitPair, main]
  exact List.not_mem_nil _

/-- Appending one name bumps the case-insensitive count of exactly its own
key. -/
lemma meshUsage_append_one (p : List String) (m k : String) :
    meshUsage (p ++ [m]) k = meshUsage p k + (if strLower m = k then 1 else 0) := by
  simp only [meshUsage, List.filter_append, List.length_append]
  congr 1
  by_cases h : strLower m = k <;> simp [h]

/-- Invariant of the renaming fold of Rig._resolve_duplicate_mesh_names: after
consuming the prefix p, the counter of every duplicated key equals its count
inside p, and the output is the specification rename of p. -/
lemma resolve_fold_spec (ms : List String) :
    ∀ (s p : List String), p ++ s = ms →
      s.foldl (resolveStep (meshUsage ms))
        ((fun key => if 1 < meshUsage ms key then meshUsage p key else 0),
          p.mapIdx (fun i m => resolveSpecEntry ms i m)) =
      ((fun key => if 1 < meshUsage ms key then meshUsage ms key else 0),
        ms.mapIdx (fun i m => resolveSpecEntry ms i m)) := by
  intro s
  induction s with
  | nil =>
      intro p hp
      simp only [List.append_nil] at hp
      subst hp
      simp
  | cons m s ih =>
      intro p hp
      have htake : ms.take p.length = p := by
        rw [← hp]; exact List.take_left p (m :: s)
      rw [List.foldl_cons]
      have hstep : resolveStep (meshUsage ms)
          ((fun key => if 1 < meshUsage ms key then meshUsage p key else 0),
            p.mapIdx (fun i m => resolveSpecEntry ms i m)) m =
          ((fun key => if 1 < meshUsage ms key then meshUsage (p ++ [m]) key else 0),
            (p ++ [m]).mapIdx (fun i m => resolveSpecEntry ms i m)) := by
        simp only [resolveStep, List.mapIdx_append_one]
        by_cases hk : 1 < meshUsage ms (strLower m)
        · simp only [hk, if_true, Prod.mk.injEq]
          constructor
          · funext k
            by_cases hkey : k = strLower m
            · subst hkey
              simp only [if_pos rfl, hk, if_true, meshUsage_append_one]
            · simp only [if_neg hkey, meshUsage_append_one]
              have : ¬ strLower m = k := fun h => hkey h.symm
              simp [this]
          · simp only [hk, if_true, resolveSpecEntry, htake, hk, if_pos hk]
        · simp only [hk, if_false, Prod.mk.injEq]
          constructor
          · funext k
            by_cases hkey : k = strLower m
            · subst hkey
              simp [hk]
            · have : ¬ strLower m = k := fun h => hkey h.symm
              simp [meshUsage_append_one, this]
          · simp [resolveSpecEntry, hk]
      rw [hstep]
      exact ih (p ++ [m]) (by rw [List.append_assoc, List.singleton_append]; exact hp)

/-- The renaming pass equals the index-wise specification rename. -/
lemma resolveMeshNameList_eq_mapIdx (ms : List String) :
    resolveMeshNameList ms = ms.mapIdx (fun i m => resolveSpecEntry ms i m) := by
  have hinit : ((fun _ => 0 : String → Nat), ([] : List String)) =
      ((fun key => if 1 < meshUsage ms key then meshUsage ([] : List String) key else 0),
        ([] : List String).mapIdx (fun i m => resolveSpecEntry ms i m)) := by
    refine Prod.ext ?_ (by simp)
    funext k
    simp [meshUsage]
  rw [resolveMeshNameList, hinit, resolve_fold_spec ms ms [] rfl]

/-- C5: duplicate mesh-name resolution renames exactly the occurrences of
case-insensitively duplicated filenames, giving the i-th occurrence the
1-based suffix numbered by how many equal keys precede it, inserted before
the extension and preserving the original casing; unique names pass through,
and the specification example from the test list holds. -/
theorem resolve_mesh_names_spec :
    (∀ ms : List String, (resolveMeshNameList ms).length = ms.length) ∧
    (∀ (ms : List String) (i : Nat), i < ms.length →
      (resolveMeshNameList ms)[i]? = (ms[i]?).map (resolveSpecEntry ms i)) ∧
    resolveMeshNameList ["wheel.mesh", "wheel.mesh", "body.mesh"] =
      ["wheel_001.mesh", "wheel_002.mesh", "body.mesh"] := by
  refine ⟨?_, ?_, by decide⟩
  · intro ms
    rw [resolveMeshNameList_eq_mapIdx]
    exact List.length_mapIdx
  · intro ms i hi
    rw [resolveMeshNameList_eq_mapIdx]
    have hlen : i < (ms.mapIdx (fun i m => resolveSpecEntry ms i m)).length := by
      rw [List.length_mapIdx]; exact hi
    rw [List.getElem?_eq_getElem hlen, List.getElem?_eq_getElem hi]
    have := List.get_mapIdx ms (fun i m => resolveSpecEntry ms i m) i hi
    simp only [List.get_eq_getElem] at this
    rw [Option.map_some', this]

/-- Witness for C5 at the specification example list. -/
theorem resolve_mesh_names_spec_witness :
    (0 : Nat) < (["wheel.mesh", "wheel.mesh", "body.mesh"] : List String).length ∧
    (resolveMeshNameList ["wheel.mesh", "wheel.mesh", "body.mesh"])[0]? =
      some "wheel_001.mesh" := by
  refine ⟨by decide, ?_⟩
  have h := resolve_mesh_names_spec.2.1 ["wheel.mesh", "wheel.mesh", "body.mesh"] 0
    (by decide)
  rw [h]
  decide

/-- The rows emitted for one beam contain exactly one beam row, the beam's
own endpoint pair, whatever the delta-encoding state. -/
lemma beamRowIds_emitOneBeam (st : BeamEmitState) (b : RBeam) :
    beamRowIds (emitOneBeam st b).2 = [(b.id1, b.id2)] := by
  simp only [emitOneBeam, beamRowIds, List.filterMap_append, apply_ite Prod.snd,
    apply_ite (List.filterMap _)]
  simp

/-- beamRowIds distributes over append. -/
lemma beamRowIds_append (a b : List BeamRow) :
    beamRowIds (a ++ b) = beamRowIds a ++ beamRowIds b := by
  simp [beamRowIds]

/-- The beam rows produced by the emission fold are the endpoint pairs of the
processed beams, in processing order. -/
lemma beamRowIds_emit_fold (bs : List RBeam) :
    ∀ (st : BeamEmitState) (acc : List BeamRow),
      beamRowIds ((bs.foldl (fun st b =>
        let er := emitOneBeam st.1 b
        (er.1, st.2 ++ er.2)) (st, acc)).2) =
      beamRowIds acc ++ bs.map (fun b => (b.id1, b.id2)) := by
  induction bs with
  | nil => intro st acc; simp
  | cons b t ih =>
      intro st acc
      rw [List.foldl_cons]
      have := ih (emitOneBeam st b).1 (acc ++ (emitOneBeam st b).2)
      rw [this, beamRowIds_append, beamRowIds_emitOneBeam]
      simp

/-- The beam rows of the whole beams section are the endpoint pairs of its
input list, in order. -/
lemma beamRowIds_beamsSectionRows (bs : List RBeam) :
    beamRowIds (beamsSectionRows bs) = bs.map (fun b => (b.id1, b.id2)) := by
  by_cases h : bs.isEmpty
  · have : bs = [] := List.isEmpty_iff.mp h
    subst this
    simp [beamsSectionRows, beamRowIds]
  · rw [beamsSectionRows, if_neg h]
    have := beamRowIds_emit_fold bs initBeamEmitState []
    simpa [beamRowIds] using this

/-- Stable descending insertion permutes cons. -/
lemma insertBeamDesc_perm (b : RBeam) (l : List RBeam) :
    (insertBeamDesc b l).Perm (b :: l) := by
  induction l with
  | nil => exact List.Perm.refl _
  | cons y t ih =>
      rw [insertBeamDesc]
      by_cases h : b.beamSpring ≤ y.beamSpring
      · rw [if_pos h]
        exact ((ih.cons y).trans (List.Perm.swap b y t))
      · rw [if_neg h]

/-- The beam sort is a permutation of its input. -/
lemma pySortBeamsDesc_perm_aux (l : List RBeam) :
    ∀ acc, ((l.foldl (fun acc b => insertBeamDesc b acc) acc)).Perm (acc ++ l) := by
  induction l with
  | nil => intro acc; simp
  | cons b t ih =>
      intro acc
      rw [List.foldl_cons]
      refine (ih (insertBeamDesc b acc)).trans ?_
      refine (((insertBeamDesc_perm b acc).append_right t).trans ?_)
      exact List.perm_middle.symm

/-- Inserting into a descending-sorted list keeps it descending-sorted. -/
lemma insertBeamDesc_pairwise {l : List RBeam}
    (h : l.Pairwise (fun a b => b.beamSpring ≤ a.beamSpring)) (b : RBeam) :
    (insertBeamDesc b l).Pairwise (fun a b => b.beamSpring ≤ a.beamSpring) := by
  induction l with
  | nil => simp [insertBeamDesc]
  | cons y t ih =>
      rw [List.pairwise_cons] at h
      rw [insertBeamDesc]
      by_cases hc : b.beamSpring ≤ y.beamSpring
      · rw [if_pos hc, List.pairwise_cons]
        refine ⟨?_, ih h.2⟩
        intro z hz
        have hz2 := (insertBeamDesc_perm b t).mem_iff.mp hz
        rcases List.mem_cons.mp hz2 with h1 | h2
        · subst h1; exact hc
        · exact h.1 z h2
      · rw [if_neg hc, List.pairwise_cons]
        push_neg at hc
        refine ⟨?_, List.pairwise_cons.mpr h⟩
        intro z hz
        rcases List.mem_cons.mp hz with h1 | h2
        · subst h1; exact le_of_lt hc
        · exact le_trans (h.1 z h2) (le_of_lt hc)

/-- The beam sort output is descending-sorted in beamSpring. -/
lemma pySortBeamsDesc_pairwise_aux (l : List RBeam) :
    ∀ acc, acc.Pairwise (fun a b => b.beamSpring ≤ a.beamSpring) →
      ((l.foldl (fun acc b => insertBeamDesc b acc) acc)).Pairwise
        (fun a b => b.beamSpring ≤ a.beamSpring) := by
  induction l with
  | nil => intro acc h; simpa using h
  | cons b t ih =>
      intro acc h
      rw [List.foldl_cons]
      exact ih _ (insertBeamDesc_pairwise h b)

/-- C2 (amended): the beams section of to_jbeam emits one row per beam, in the
order obtained by stably sorting the appended beams by descending beamSpring
(a permutation of the parsed beams, descending-sorted); the claimed insertion
order is refuted separately on a concrete rig. -/
theorem to_jbeam_beams_sorted_spec (r : Rig) :
    beamRowIds ((r.to_jbeam).1.beamRows) =
      (pySortBeamsDesc r.beams).map (fun b => (b.id1, b.id2)) ∧
    (pySortBeamsDesc r.beams).Perm r.beams ∧
    (pySortBeamsDesc r.beams).Pairwise (fun a b => b.beamSpring ≤ a.beamSpring) := by
  refine ⟨?_, ?_, ?_⟩
  · exact beamRowIds_beamsSectionRows (pySortBeamsDesc r.beams)
  · simpa using pySortBeamsDesc_perm_aux r.beams []
  · exact pySortBeamsDesc_pairwise_aux r.beams [] (by simp)

/-- C2 counterexample: on a rig whose two beams were appended softest-first,
the emitted beam rows are not in insertion order. -/
theorem to_jbeam_beams_not_insertion_order :
    beamRowIds ((Rig.to_jbeam rigTwoBeams).1.beamRows) ≠
      rigTwoBeams.beams.map (fun b => (b.id1, b.id2)) := by decide

/-- The emitted document always carries the rig name: no serialization path is
conditional on recorded errors. -/
lemma to_jbeam_name (r : Rig) : (r.to_jbeam).1.name = r.name := rfl

/-- Branch reduction of calculate_masses when the density is zero. -/
lemma calc_masses_zero_density_eq (r : Rig) (hne : r.nodes ≠ [])
    (hdens : massDensity r = 0) :
    r.calculate_masses =
      { r with nodes := massInit r,
               parse_warnings := r.parse_warnings ++ (massInitPair r).2
                 ++ missingBeamWarnings (massInit r) r.beams,
               parse_errors := r.parse_errors ++ [msgNoValidBeams] } := by
  have hemp : ¬ r.nodes.isEmpty = true := by
    simpa [List.isEmpty_iff] using hne
  rw [Rig.calculate_masses, if_neg hemp, if_pos hdens]

/-- Branch reduction of calculate_masses when the density is nonzero. -/
lemma calc_masses_pos_density_eq (r : Rig) (hne : r.nodes ≠ [])
    (hdens : massDensity r ≠ 0) :
    r.calculate_masses =
      { r with nodes := (massDistributed r).map (clampNode r.minimass),
               parse_warnings := r.parse_warnings ++ (massInitPair r).2
                 ++ missingBeamWarnings (massInit r) r.beams
                 ++ massDiffWarning ((massDistributed r).map (clampNode r.minimass))
                     r.dry_weight r.load_weight } := by
  have hemp : ¬ r.nodes.isEmpty = true := by
    simpa [List.isEmpty_iff] using hne
  rw [Rig.calculate_masses, if_neg hemp, if_neg hdens]

/-- The density of the zero-length-beam rig is zero. -/
lemma massDensity_rigZeroLengthBeam : massDensity rigZeroLengthBeam = 0 := by
  simp [massDensity, densityOf, massInit, massInitPair, initMasses, initNodeMass,
    countLoadNodes, beamSqLen, findNode, List.find?, vector_distance,
    rigZeroLengthBeam, exNode, exBeam]

/-- The node list of the zero-length-beam rig after calculate_masses: the
masses stay at their initialization value 0. -/
lemma calc_masses_rigZeroLengthBeam_nodes :
    (Rig.calculate_masses rigZeroLengthBeam).nodes =
      [{ exNode "n1" 0 0 0 with mass := 0 }, { exNode "n2" 0 0 0 with mass := 0 }] := by
  rw [calc_masses_zero_density_eq rigZeroLengthBeam (by decide)
    massDensity_rigZeroLengthBeam]
  simp [massInit, massInitPair, initMasses, initNodeMass, rigZeroLengthBeam, exNode]

/-- The density of the unit-beam rig is one. -/
lemma massDensity_rigUnitBeam : massDensity rigUnitBeam = 1 := by
  simp [massDensity, densityOf, massInit, massInitPair, initMasses, initNodeMass,
    countLoadNodes, beamSqLen, findNode, List.find?, vector_distance,
    rigUnitBeam, exNode, exBeam]
  decide

/-- The initialized node list of the unit-beam rig. -/
lemma massInit_rigUnitBeam :
    massInit rigUnitBeam =
      [{ exNode "n1" 0 0 0 with mass := 0 }, { exNode "n2" 1 0 0 with mass := 0 }] := by
  simp [massInit, massInitPair, initMasses, initNodeMass, rigUnitBeam, exNode]

/-- The distributed node list of the unit-beam rig: each endpoint receives
1 * 10000 / 1 / 2 = 5000. -/
lemma massDistributed_rigUnitBeam :
    massDistributed rigUnitBeam = [nodeUnitRes, { nodeUnitRes with name := "n2", x := 1 }] := by
  rw [massDistributed, massDensity_rigUnitBeam, massInit_rigUnitBeam]
  simp [distributeMasses, distributeBeam, findNode, List.find?, vector_distance,
    modifyFirstByName, rigUnitBeam, exNode, exBeam, nodeUnitRes]
  norm_num
  decide

/-- The node list of the unit-beam rig after calculate_masses. -/
lemma calc_masses_rigUnitBeam_nodes :
    (Rig.calculate_masses rigUnitBeam).nodes =
      [nodeUnitRes, { nodeUnitRes with name := "n2", x := 1 }] := by
  rw [calc_masses_pos_density_eq rigUnitBeam (by decide)
    (by rw [massDensity_rigUnitBeam]; norm_num)]
  rw [show (Rig.nodes { rigUnitBeam with
      nodes := (massDistributed rigUnitBeam).map (clampNode rigUnitBeam.minimass),
      parse_warnings := rigUnitBeam.parse_warnings ++ (massInitPair rigUnitBeam).2
        ++ missingBeamWarnings (massInit rigUnitBeam) rigUnitBeam.beams
        ++ massDiffWarning ((massDistributed rigUnitBeam).map
            (clampNode rigUnitBeam.minimass)) rigUnitBeam.dry_weight
            rigUnitBeam.load_weight }) =
    (massDistributed rigUnitBeam).map (clampNode rigUnitBeam.minimass) from rfl]
  rw [massDistributed_rigUnitBeam]
  simp [clampNode, nodeUnitRes, rigUnitBeam]
  norm_num

/-- C3 (amended): when the computed density is zero, calculate_masses records
the error and returns normally with the masses left at their initialization
values; the conversion continues and the serializer still produces output. -/
theorem zero_density_records_error_and_returns (r : Rig)
    (hne : r.nodes ≠ []) (hdens : massDensity r = 0) :
    r.calculate_masses =
      { r with nodes := massInit r,
               parse_warnings := r.parse_warnings ++ (massInitPair r).2
                 ++ missingBeamWarnings (massInit r) r.beams,
               parse_errors := r.parse_errors ++ [msgNoValidBeams] } ∧
    msgNoValidBeams ∈ (r.calculate_masses).parse_errors ∧
    ((r.calculate_masses).to_jbeam).1.name = r.name := by
  have hmain := calc_masses_zero_density_eq r hne hdens
  refine ⟨hmain, ?_, ?_⟩
  · rw [hmain]
    simp
  · rw [to_jbeam_name, hmain]

/-- Witness for the amended C3 on the one-node, zero-beam rig. -/
theorem zero_density_records_error_witness :
    msgNoValidBeams ∈ (Rig.calculate_masses rigNoBeams).parse_errors ∧
    ((Rig.calculate_masses rigNoBeams).to_jbeam).1.name = rigNoBeams.name :=
  ⟨(zero_density_records_error_and_returns rigNoBeams (by decide) (by decide)).2.1,
   (zero_density_records_error_and_returns rigNoBeams (by decide) (by decide)).2.2⟩

/-- C3 counterexample: on a concrete zero-density rig the post-parse pipeline
of convert_single_file completes and emits a document (carrying the rig name)
even though the mass-distribution error was recorded: nothing aborts the
conversion. -/
theorem zero_density_conversion_not_aborted :
    msgNoValidBeams ∈ ((convertAfterParse rigNoBeams).2).parse_errors ∧
    ((convertAfterParse rigNoBeams).1).name = "testrig" := by decide

/-- C4 (amended): with at least one node and nonzero density, every node mass
after calculate_masses is at least minimum_mass (the final clamp loop). -/
theorem calculate_masses_minimum_mass (r : Rig)
    (hne : r.nodes ≠ []) (hdens : massDensity r ≠ 0) :
    ∀ n ∈ (r.calculate_masses).nodes, r.minimass ≤ n.mass := by
  intro n hn
  rw [calc_masses_pos_density_eq r hne hdens] at hn
  simp only [List.mem_map] at hn
  obtain ⟨m, _, rfl⟩ := hn
  rw [clampNode]
  by_cases h : m.mass < r.minimass
  · rw [if_pos h]
  · rw [if_neg h]
    exact le_of_not_lt h

/-- Witness for the amended C4 on the unit-length-beam rig. -/
theorem calculate_masses_minimum_mass_witness :
    rigUnitBeam.minimass ≤ nodeUnitRes.mass :=
  calculate_masses_minimum_mass rigUnitBeam (by decide)
    (by rw [massDensity_rigUnitBeam]; norm_num) nodeUnitRes
    (by rw [calc_masses_rigUnitBeam_nodes]; simp)

/-- C4 counterexample: a rig with nodes and a non-virtual beam on which a node
ends below minimum_mass: the zero-length beam makes the density zero and the
early return skips the clamp. -/
theorem minimum_mass_violated_on_zero_density :
    1 ≤ rigZeroLengthBeam.nodes.length ∧
    1 ≤ (rigZeroLengthBeam.beams.filter (fun b => b.type ≠ "VIRTUAL")).length ∧
    ¬ (∀ n ∈ (Rig.calculate_masses rigZeroLengthBeam).nodes,
        rigZeroLengthBeam.minimass ≤ n.mass) := by
  refine ⟨by decide, by decide, ?_⟩
  intro hall
  have hmem : ({ exNode "n1" 0 0 0 with mass := 0 } : RNode) ∈
      (Rig.calculate_masses rigZeroLengthBeam).nodes := by
    rw [calc_masses_rigZeroLengthBeam_nodes]
    simp
  have := hall _ hmem
  norm_num [rigZeroLengthBeam, exNode] at this

/-- Zeroing the mass changes no other field. -/
lemma eraseMass_name (n : RNode) : (eraseMass n).name = n.name := rfl

/-- Zeroing the mass twice is zeroing it once. -/
lemma eraseMass_idem (n : RNode) : eraseMass (eraseMass n) = eraseMass n := rfl

/-- Mass initialization only sets the mass field to some value. -/
lemma initNodeMass_fst (k : Nat) (lw minim : ℚ) (n : RNode) :
    ∃ v, (initNodeMass k lw minim n).1 = { n with mass := v } := by
  rw [initNodeMass]
  by_cases hb : n.load_bearer = false
  · rw [if_pos hb]
    exact ⟨0, rfl⟩
  · rw [if_neg hb]
    cases hov : n.override_mass
    · by_cases hk : 0 < k
      · rw [if_pos hk]
        exact ⟨lw / (k : ℚ), rfl⟩
      · rw [if_neg hk]
        exact ⟨minim, rfl⟩
    · exact ⟨_, rfl⟩

/-- Mass initialization only writes the mass field. -/
lemma eraseMass_initNodeMass (k : Nat) (lw minim : ℚ) (n : RNode) :
    eraseMass (initNodeMass k lw minim n).1 = eraseMass n := by
  obtain ⟨v, hv⟩ := initNodeMass_fst k lw minim n
  rw [hv]
  rfl

/-- Mass initialization reads no field but the mass it overwrites. -/
lemma initNodeMass_eraseMass (k : Nat) (lw minim : ℚ) (n : RNode) :
    initNodeMass k lw minim (eraseMass n) = initNodeMass k lw minim n := rfl

/-- The whole initialization loop is insensitive to the incoming masses. -/
lemma initMasses_map_eraseMass (k : Nat) (lw minim : ℚ) (ns : List RNode) :
    initMasses k lw minim (ns.map eraseMass) = initMasses k lw minim ns := by
  rw [initMasses, initMasses, List.map_map, List.map_map]
  rfl

/-- The load-bearing count is insensitive to masses. -/
lemma countLoadNodes_map_eraseMass (ns : List RNode) :
    countLoadNodes (ns.map eraseMass) = countLoadNodes ns := by
  rw [countLoadNodes, countLoadNodes, List.filter_map, List.length_map]
  rfl

/-- Initialization agrees on two lists with the same mass-erased image. -/
lemma initMasses_congr {ns₁ ns₂ : List RNode} (k : Nat) (lw minim : ℚ)
    (h : ns₁.map eraseMass = ns₂.map eraseMass) :
    initMasses k lw minim ns₁ = initMasses k lw minim ns₂ := by
  rw [← initMasses_map_eraseMass k lw minim ns₁, h, initMasses_map_eraseMass]

/-- The load-bearing count agrees on two lists with the same mass-erased
image. -/
lemma countLoadNodes_congr {ns₁ ns₂ : List RNode}
    (h : ns₁.map eraseMass = ns₂.map eraseMass) :
    countLoadNodes ns₁ = countLoadNodes ns₂ := by
  rw [← countLoadNodes_map_eraseMass ns₁, h, countLoadNodes_map_eraseMass]

/-- A first-match update whose action only touches the mass preserves the
mass-erased image of the list. -/
lemma modifyFirstByName_map_eraseMass (nm : String) (f : RNode → RNode)
    (hf : ∀ n, eraseMass (f n) = eraseMass n) :
    ∀ ns : List RNode,
      (modifyFirstByName nm f ns).map eraseMass = ns.map eraseMass := by
  intro ns
  induction ns with
  | nil => rfl
  | cons n t ih =>
      rw [modifyFirstByName]
      by_cases h : n.name = nm
      · rw [if_pos h, List.map_cons, List.map_cons, hf]
      · rw [if_neg h, List.map_cons, List.map_cons, ih]

/-- Adding to the mass of the first node of a name preserves the mass-erased
image. -/
lemma modifyFirst_addMass_map_eraseMass (nm : String) (dm : ℚ) (ns : List RNode) :
    (modifyFirstByName nm (fun n => { n with mass := n.mass + dm }) ns).map
      eraseMass = ns.map eraseMass :=
  modifyFirstByName_map_eraseMass nm (fun n => { n with mass := n.mass + dm })
    (fun _ => rfl) ns

/-- Weight distribution for one beam preserves the mass-erased image. -/
lemma distributeBeam_map_eraseMass (dw dens : ℚ) (ns : List RNode) (b : RBeam) :
    (distributeBeam dw dens ns b).map eraseMass = ns.map eraseMass := by
  rw [distributeBeam]
  by_cases ht : b.type ≠ "VIRTUAL"
  · rw [if_pos ht]
    cases h1 : findNode ns b.id1 <;> cases h2 : findNode ns b.id2 <;>
      simp only []
    rw [modifyFirst_addMass_map_eraseMass, modifyFirst_addMass_map_eraseMass]
  · rw [if_neg ht]

/-- The whole distribution loop preserves the mass-erased image. -/
lemma distributeMasses_map_eraseMass (dw dens : ℚ) (bs : List RBeam) :
    ∀ ns : List RNode,
      (distributeMasses dw dens ns bs).map eraseMass = ns.map eraseMass := by
  induction bs with
  | nil => intro ns; rfl
  | cons b t ih =>
      intro ns
      rw [distributeMasses, List.foldl_cons]
      have := ih (distributeBeam dw dens ns b)
      rw [distributeMasses] at this
      rw [this, distributeBeam_map_eraseMass]

/-- The minimum-mass clamp preserves the mass-erased image. -/
lemma clampNode_map_eraseMass (minim : ℚ) (ns : List RNode) :
    (ns.map (clampNode minim)).map eraseMass = ns.map eraseMass := by
  rw [List.map_map]
  refine List.map_congr_left ?_
  intro n _
  rw [Function.comp_apply, clampNode]
  by_cases h : n.mass < minim
  · rw [if_pos h]
    rfl
  · rw [if_neg h]

/-- The initialized list has the same mass-erased image as the input. -/
lemma massInit_map_eraseMass (r : Rig) :
    (massInit r).map eraseMass = r.nodes.map eraseMass := by
  rw [massInit, massInitPair, initMasses, List.map_map]
  refine List.map_congr_left ?_
  intro n _
  exact eraseMass_initNodeMass _ _ _ n

/-- calculate_masses only rewrites masses: the mass-erased node image is
preserved on every path. -/
lemma calc_masses_nodes_map_eraseMass (r : Rig) :
    (r.calculate_masses).nodes.map eraseMass = r.nodes.map eraseMass := by
  rw [Rig.calculate_masses]
  by_cases h1 : r.nodes.isEmpty
  · rw [if_pos h1]
  · rw [if_neg h1]
    by_cases h2 : massDensity r = 0
    · rw [if_pos h2]
      exact massInit_map_eraseMass r
    · rw [if_neg h2]
      show ((massDistributed r).map (clampNode r.minimass)).map eraseMass =
        r.nodes.map eraseMass
      rw [clampNode_map_eraseMass]
      rw [show massDistributed r =
        distributeMasses r.dry_weight (massDensity r) (massInit r) r.beams from rfl]
      rw [distributeMasses_map_eraseMass, massInit_map_eraseMass]

/-- calculate_masses leaves every field except nodes, parse_warnings and
parse_errors untouched. -/
lemma calc_masses_fields (r : Rig) :
    (r.calculate_masses).beams = r.beams ∧
    (r.calculate_masses).minimass = r.minimass ∧
    (r.calculate_masses).dry_weight = r.dry_weight ∧
    (r.calculate_masses).load_weight = r.load_weight := by
  rw [Rig.calculate_masses]
  by_cases h1 : r.nodes.isEmpty
  · rw [if_pos h1]
    exact ⟨rfl, rfl, rfl, rfl⟩
  · rw [if_neg h1]
    by_cases h2 : massDensity r = 0
    · rw [if_pos h2]
      exact ⟨rfl, rfl, rfl, rfl⟩
    · rw [if_neg h2]
      exact ⟨rfl, rfl, rfl, rfl⟩

/-- The mass pipeline stages agree on rigs that differ only in node masses,
warnings and errors. -/
lemma mass_stage_congr (r₁ r₂ : Rig)
    (hn : r₁.nodes.map eraseMass = r₂.nodes.map eraseMass)
    (hb : r₁.beams = r₂.beams) (hlw : r₁.load_weight = r₂.load_weight)
    (hmm : r₁.minimass = r₂.minimass) (hdw : r₁.dry_weight = r₂.dry_weight) :
    massInit r₁ = massInit r₂ ∧ massDensity r₁ = massDensity r₂ ∧
      massDistributed r₁ = massDistributed r₂ := by
  have hcount : countLoadNodes r₁.nodes = countLoadNodes r₂.nodes :=
    countLoadNodes_congr hn
  have hinit : massInit r₁ = massInit r₂ := by
    rw [massInit, massInit, massInitPair, massInitPair, hcount, hlw, hmm]
    exact congrArg Prod.fst (initMasses_congr _ _ _ hn)
  have hdens : massDensity r₁ = massDensity r₂ := by
    rw [massDensity, massDensity, hinit, hb]
  refine ⟨hinit, hdens, ?_⟩
  rw [massDistributed, massDistributed, hinit, hdens, hb, hdw]

/-- C9: calculate_masses is idempotent on node masses: a second run recomputes
every mass from fields the first run never modified, so the masses (indeed the
whole node lists) coincide. -/
theorem calculate_masses_idempotent (r : Rig) :
    ((r.calculate_masses).calculate_masses).nodes.map RNode.mass =
      (r.calculate_masses).nodes.map RNode.mass := by
  suffices h : ((r.calculate_masses).calculate_masses).nodes =
      (r.calculate_masses).nodes by rw [h]
  set r1 := r.calculate_masses with hr1
  by_cases hemp : r.nodes.isEmpty
  · have he1 : r.calculate_masses =
        { r with parse_errors := r.parse_errors ++ [msgNoNodes] } := by
      rw [Rig.calculate_masses, if_pos hemp]
    have hemp1 : r1.nodes.isEmpty = true := by
      rw [hr1, he1]
      exact hemp
    rw [Rig.calculate_masses, if_pos hemp1]
  · have hnE : r1.nodes.map eraseMass = r.nodes.map eraseMass := by
      rw [hr1]
      exact calc_masses_nodes_map_eraseMass r
    have hflds := calc_masses_fields r
    have hcong := mass_stage_congr r1 r hnE hflds.1 hflds.2.2.2 hflds.2.1
      hflds.2.2.1
    have hne : r.nodes ≠ [] := by simpa [List.isEmpty_iff] using hemp
    have hne1 : r1.nodes ≠ [] := by
      intro h0
      rw [h0] at hnE
      have hmap : r.nodes.map eraseMass = [] := hnE.symm
      exact hne (List.map_eq_nil_iff.mp hmap)
    by_cases hd : massDensity r = 0
    · have hd1 : massDensity r1 = 0 := by rw [hcong.2.1]; exact hd
      rw [calc_masses_zero_density_eq r1 hne1 hd1]
      show massInit r1 = r1.nodes
      have hz : r1.nodes = massInit r := by
        rw [hr1, calc_masses_zero_density_eq r hne hd]
      rw [hcong.1, hz]
    · have hd1 : massDensity r1 ≠ 0 := by rw [hcong.2.1]; exact hd
      rw [calc_masses_pos_density_eq r1 hne1 hd1]
      show (massDistributed r1).map (clampNode r1.minimass) = r1.nodes
      have hz : r1.nodes = (massDistributed r).map (clampNode r.minimass) := by
        rw [hr1, calc_masses_pos_density_eq r hne hd]
      rw [hcong.2.2, hflds.2.1, hz]

/-- Group insertion does not rename the node. -/
lemma addGroupToNode_name (g : String) (n : RNode) :
    (addGroupToNode g n).name = n.name := by
  rw [addGroupToNode]
  by_cases h : g ∈ n.group
  · rw [if_pos h]
  · rw [if_neg h]

/-- The group name is present after insertion. -/
lemma mem_addGroupToNode (g : String) (n : RNode) :
    g ∈ (addGroupToNode g n).group := by
  rw [addGroupToNode]
  by_cases h : g ∈ n.group
  · rw [if_pos h]
    exact h
  · rw [if_neg h]
    simp

/-- A first-match update whose action preserves names preserves the name
list. -/
lemma modifyFirstByName_map_name (nm : String) (f : RNode → RNode)
    (hf : ∀ n, (f n).name = n.name) :
    ∀ ns : List RNode,
      (modifyFirstByName nm f ns).map RNode.name = ns.map RNode.name := by
  intro ns
  induction ns with
  | nil => rfl
  | cons n t ih =>
      rw [modifyFirstByName]
      by_cases h : n.name = nm
      · rw [if_pos h, List.map_cons, List.map_cons, hf]
      · rw [if_neg h, List.map_cons, List.map_cons, ih]

/-- Entry-wise description of a first-match update when node names are
unique: exactly the entry carrying the name is rewritten. -/
lemma modifyFirstByName_getElem (nm : String) (f : RNode → RNode) :
    ∀ (ns : List RNode), (ns.map RNode.name).Nodup → ∀ i : Nat,
      (modifyFirstByName nm f ns)[i]? =
        (ns[i]?).map (fun n => if n.name = nm then f n else n) := by
  intro ns
  induction ns with
  | nil => intro _ i; rfl
  | cons n t ih =>
      intro hnd i
      have hnd' : ((n :: t).map RNode.name).Nodup := hnd
      rw [List.map_cons, List.nodup_cons] at hnd'
      rw [modifyFirstByName]
      by_cases h : n.name = nm
      · rw [if_pos h]
        cases i with
        | zero =>
            rw [List.getElem?_cons_zero, List.getElem?_cons_zero,
              Option.map_some', if_pos h]
        | succ j =>
            rw [List.getElem?_cons_succ, List.getElem?_cons_succ]
            cases ht : t[j]? with
            | none => rfl
            | some m =>
                have hm : m ∈ t := List.getElem?_mem ht
                have hmn : ¬ m.name = nm := by
                  intro hEq
                  exact hnd'.1 (h ▸ hEq ▸ List.mem_map_of_mem RNode.name hm)
                rw [Option.map_some', if_neg hmn]
      · rw [if_neg h]
        cases i with
        | zero =>
            rw [List.getElem?_cons_zero, List.getElem?_cons_zero,
              Option.map_some', if_neg h]
        | succ j =>
            rw [List.getElem?_cons_succ, List.getElem?_cons_succ]
            exact ih hnd'.2 j

/-- Entry-wise description of folding group assignment over a name list with
unique node names: a node gains the group name exactly once iff its name is
listed and the group is not already present. -/
lemma assign_fold_getElem (g : String) :
    ∀ (L : List String) (ns : List RNode), (ns.map RNode.name).Nodup →
      ∀ i : Nat,
        (L.foldl (assignGroupStep g) ns)[i]? =
          (ns[i]?).map (fun n =>
            if n.name ∈ L ∧ g ∉ n.group
            then { n with group := n.group ++ [g] } else n) := by
  intro L
  induction L with
  | nil =>
      intro ns hnd i
      rw [List.foldl_nil]
      cases h : ns[i]? with
      | none => rfl
      | some n => rw [Option.map_some', if_neg (by simp)]
  | cons nm L ih =>
      intro ns hnd i
      rw [List.foldl_cons]
      have hname : (assignGroupStep g ns nm).map RNode.name = ns.map RNode.name :=
        modifyFirstByName_map_name nm _ (addGroupToNode_name g) ns
      have hnd2 : ((assignGroupStep g ns nm).map RNode.name).Nodup := by
        rw [hname]; exact hnd
      rw [ih _ hnd2 i, assignGroupStep,
        modifyFirstByName_getElem nm (addGroupToNode g) ns hnd i,
        Option.map_map]
      refine Option.map_congr ?_
      intro n _
      rw [Function.comp_apply]
      by_cases h1 : n.name = nm
      · rw [if_pos h1]
        have hgrp : g ∉ (addGroupToNode g n).group → False := fun hc =>
          hc (mem_addGroupToNode g n)
        rw [if_neg (by
          intro hc
          exact hgrp hc.2)]
        rw [addGroupToNode]
        by_cases h2 : g ∈ n.group
        · rw [if_pos h2, if_neg (by
            intro hc
            exact hc.2 h2)]
        · rw [if_neg h2, if_pos ⟨by rw [List.mem_cons]; exact Or.inl h1, h2⟩]
      · rw [if_neg h1]
        by_cases h3 : n.name ∈ L ∧ g ∉ n.group
        · rw [if_pos h3, if_pos ⟨by rw [List.mem_cons]; exact Or.inr h3.1, h3.2⟩]
        · rw [if_neg h3, if_neg (by
            intro hc
            rcases hc with ⟨hmem, hg⟩
            rw [List.mem_cons] at hmem
            rcases hmem with he | hL
            · exact h1 he
            · exact h3 ⟨hL, hg⟩)]

/-- Every node of the rig passes the node-map existence check for its own
name. -/
lemma nodeExists_of_mem {ns : List RNode} {n : RNode} (h : n ∈ ns) :
    nodeExists ns n.name = true := by
  rw [nodeExists, Option.isSome_iff_exists]
  have : (ns.find? (fun m => m.name = n.name)).isSome := by
    rw [List.find?_isSome]
    exact ⟨n, h, by simp⟩
  rw [Option.isSome_iff_exists] at this
  exact this

/-- Entry-wise description of processing one flexbody: a node gains the group
name exactly when its name is a resolvable triad name, a forset name, or —
only with an empty forset list — a spatial-expansion name. -/
lemma assignOneFlexbody_getElem (ns : List RNode) (fb : RFlexbody)
    (hnd : (ns.map RNode.name).Nodup) (i : Nat) :
    (assignOneFlexbody ns fb)[i]? = (ns[i]?).map (fun n =>
      if (n.name = fb.refnode ∨ n.name = fb.xnode ∨ n.name = fb.ynode ∨
          n.name ∈ fb.forset_nodes ∨
          (fb.forset_nodes.isEmpty = true ∧ n.name ∈ findFlexbodyNodes ns fb)) ∧
          fb.get_group_name ∉ n.group
      then { n with group := n.group ++ [fb.get_group_name] } else n) := by
  have hL : assignOneFlexbody ns fb =
      ((if fb.forset_nodes.isEmpty then
          ([fb.refnode, fb.xnode, fb.ynode].filter (fun nm => nodeExists ns nm)
            ++ fb.forset_nodes) ++ findFlexbodyNodes ns fb
        else
          [fb.refnode, fb.xnode, fb.ynode].filter (fun nm => nodeExists ns nm)
            ++ fb.forset_nodes).dedup).foldl
        (assignGroupStep fb.get_group_name) ns := rfl
  rw [hL, assign_fold_getElem fb.get_group_name _ ns hnd i]
  refine Option.map_congr ?_
  intro n hn
  have hmem : n ∈ ns := List.getElem?_mem hn
  have hex := nodeExists_of_mem hmem
  refine if_congr ?_ rfl rfl
  by_cases hfe : fb.forset_nodes.isEmpty
  · have hfn : fb.forset_nodes = [] := List.isEmpty_iff.mp hfe
    simp only [List.mem_dedup, hfe, if_true, List.mem_append, List.mem_filter,
      hfn, List.mem_cons, List.not_mem_nil, hex, and_true, or_false,
      List.isEmpty_nil]
    tauto
  · have hfe' : fb.forset_nodes.isEmpty = false := by
      cases h : fb.forset_nodes.isEmpty
      · rfl
      · exact absurd h hfe
    simp only [List.mem_dedup, hfe', if_false, Bool.false_eq_true, false_and,
      List.mem_append, List.mem_filter, List.mem_cons, List.not_mem_nil,
      hex, and_true, or_false]
    tauto

/-- C6: a flexbody with a non-empty forset list gives its group name exactly
to the resolvable triad names and the resolvable forset names, with no
duplicate insertion and no spatial expansion. -/
theorem flexbody_forset_group_assignment (ns : List RNode) (fb : RFlexbody)
    (hnd : (ns.map RNode.name).Nodup) (hforset : fb.forset_nodes ≠ []) :
    ∀ i : Nat, (assignOneFlexbody ns fb)[i]? = (ns[i]?).map (fun n =>
      if (n.name = fb.refnode ∨ n.name = fb.xnode ∨ n.name = fb.ynode ∨
          n.name ∈ fb.forset_nodes) ∧ fb.get_group_name ∉ n.group
      then { n with group := n.group ++ [fb.get_group_name] } else n) := by
  intro i
  rw [assignOneFlexbody_getElem ns fb hnd i]
  refine Option.map_congr ?_
  intro n _
  have hfe : fb.forset_nodes.isEmpty = false := by
    cases h : fb.forset_nodes
    · exact absurd h hforset
    · rfl
  refine if_congr ?_ rfl rfl
  simp [hfe]

/-- Witness for C6 on a rig of four nodes: the forset node nd gains the group,
evaluated concretely. -/
theorem flexbody_forset_group_assignment_witness :
    (assignOneFlexbody nodesGroupEx fbForset)[3]? =
      some { exNode "nd" 5 5 5 with group := ["grp"] } := by
  rw [flexbody_forset_group_assignment nodesGroupEx fbForset (by decide)
    (by decide) 3]
  decide

/-- C7: a flexbody with an empty forset list and a resolvable triad expands
spatially: the candidate set collects every node within twice the largest
triad-to-centroid distance of the centroid, the preferred subset keeps the
candidates in fewer than two groups, the full candidate set is used when
fewer than ten remain, and exactly the triad plus the expansion result gain
the group name, without duplicates. -/
theorem flexbody_spatial_group_assignment (ns : List RNode) (fb : RFlexbody)
    (rn xn yn : RNode) (hnd : (ns.map RNode.name).Nodup)
    (hforset : fb.forset_nodes = [])
    (href : findNode ns fb.refnode = some rn)
    (hx : findNode ns fb.xnode = some xn)
    (hy : findNode ns fb.ynode = some yn) :
    findFlexbodyNodes ns fb =
      (if (preferredSubset ns (spatialCandidates ns rn xn yn)).length < 10
       then spatialCandidates ns rn xn yn
       else preferredSubset ns (spatialCandidates ns rn xn yn)) ∧
    ∀ i : Nat, (assignOneFlexbody ns fb)[i]? = (ns[i]?).map (fun n =>
      if (n.name = fb.refnode ∨ n.name = fb.xnode ∨ n.name = fb.ynode ∨
          n.name ∈ findFlexbodyNodes ns fb) ∧ fb.get_group_name ∉ n.group
      then { n with group := n.group ++ [fb.get_group_name] } else n) := by
  constructor
  · rw [findFlexbodyNodes, href, hx, hy]
    rfl
  · intro i
    rw [assignOneFlexbody_getElem ns fb hnd i]
    refine Option.map_congr ?_
    intro n _
    refine if_congr ?_ rfl rfl
    simp [hforset]

/-- Witness for C7 on a rig of four nodes with a resolvable triad and no
forset list, instantiated at the reference node. -/
theorem flexbody_spatial_group_assignment_witness :
    (assignOneFlexbody nodesGroupEx fbSpatial)[0]? =
      ((nodesGroupEx[0]?).map (fun n =>
        if (n.name = fbSpatial.refnode ∨ n.name = fbSpatial.xnode ∨
            n.name = fbSpatial.ynode ∨
            n.name ∈ findFlexbodyNodes nodesGroupEx fbSpatial) ∧
            fbSpatial.get_group_name ∉ n.group
        then { n with group := n.group ++ [fbSpatial.get_group_name] } else n)) :=
  (flexbody_spatial_group_assignment nodesGroupEx fbSpatial
    (exNode "na" 0 0 0) (exNode "nb" 1 0 0) (exNode "nc" 0 1 0)
    (by decide) rfl (by decide) (by decide) (by decide)).2 0

/-- Node search commutes with erasing masses. -/
lemma findNode_map_eraseMass (ns : List RNode) (nm : String) :
    findNode (ns.map eraseMass) nm = (findNode ns nm).map eraseMass := by
  rw [findNode, findNode, List.find?_map]
  rfl

/-- Node search agrees, up to masses, on lists with the same mass-erased
image. -/
lemma findNode_congr {ns₁ ns₂ : List RNode}
    (h : ns₁.map eraseMass = ns₂.map eraseMass) (nm : String) :
    (findNode ns₁ nm).map eraseMass = (findNode ns₂ nm).map eraseMass := by
  rw [← findNode_map_eraseMass, ← findNode_map_eraseMass, h]

/-- Case split on a pair of options with equal mass-erased images. -/
lemma option_eraseMass_cases {o₁ o₂ : Option RNode}
    (h : o₁.map eraseMass = o₂.map eraseMass) :
    (o₁ = none ∧ o₂ = none) ∨
      ∃ a b, o₁ = some a ∧ o₂ = some b ∧ eraseMass a = eraseMass b := by
  cases o₁ with
  | none =>
      cases o₂ with
      | none => exact Or.inl ⟨rfl, rfl⟩
      | some b => simp at h
  | some a =>
      cases o₂ with
      | none => simp at h
      | some b =>
          refine Or.inr ⟨a, b, rfl, rfl, ?_⟩
          simpa using h

/-- Positions are determined by the mass-erased image. -/
lemma eraseMass_inj_pos {a b : RNode} (h : eraseMass a = eraseMass b) :
    a.x = b.x ∧ a.y = b.y ∧ a.z = b.z := by
  have h2 : ({ a with mass := 0 } : RNode) = { b with mass := 0 } := h
  simp only [RNode.mk.injEq] at h2
  exact ⟨h2.2.1, h2.2.2.1, h2.2.2.2.1⟩

/-- Squared beam length agrees on lists with the same mass-erased image. -/
lemma beamSqLen_congr {ns₁ ns₂ : List RNode}
    (h : ns₁.map eraseMass = ns₂.map eraseMass) (b : RBeam) :
    beamSqLen ns₁ b = beamSqLen ns₂ b := by
  rw [beamSqLen, beamSqLen]
  rcases option_eraseMass_cases (findNode_congr h b.id1) with ⟨e1, e2⟩ |
    ⟨a1, b1, e1, e2, hab⟩ <;>
    rcases option_eraseMass_cases (findNode_congr h b.id2) with ⟨f1, f2⟩ |
      ⟨a2, b2, f1, f2, hab2⟩ <;>
    rw [e1, e2, f1, f2] <;>
    try rfl
  obtain ⟨hx1, hy1, hz1⟩ := eraseMass_inj_pos hab
  obtain ⟨hx2, hy2, hz2⟩ := eraseMass_inj_pos hab2
  show some (vector_distance a1.x a1.y a1.z a2.x a2.y a2.z) =
    some (vector_distance b1.x b1.y b1.z b2.x b2.y b2.z)
  rw [hx1, hy1, hz1, hx2, hy2, hz2]

/-- A beam's mass share agrees on lists with the same mass-erased image. -/
lemma beamShare_congr {ns₁ ns₂ : List RNode}
    (h : ns₁.map eraseMass = ns₂.map eraseMass) (b : RBeam) (nm : String)
    (dw dens : ℚ) : beamShare ns₁ b nm dw dens = beamShare ns₂ b nm dw dens := by
  rw [beamShare, beamShare]
  by_cases ht : b.type ≠ "VIRTUAL"
  · rw [if_pos ht, if_pos ht]
    rcases option_eraseMass_cases (findNode_congr h b.id1) with ⟨e1, e2⟩ |
      ⟨a1, b1, e1, e2, hab⟩ <;>
      rcases option_eraseMass_cases (findNode_congr h b.id2) with ⟨f1, f2⟩ |
        ⟨a2, b2, f1, f2, hab2⟩ <;>
      rw [e1, e2, f1, f2] <;>
      try rfl
    obtain ⟨hx1, hy1, hz1⟩ := eraseMass_inj_pos hab
    obtain ⟨hx2, hy2, hz2⟩ := eraseMass_inj_pos hab2
    show (if b.id1 = nm then
        vector_distance a1.x a1.y a1.z a2.x a2.y a2.z * dw / dens / 2 else 0) +
      (if b.id2 = nm then
        vector_distance a1.x a1.y a1.z a2.x a2.y a2.z * dw / dens / 2 else 0) =
      (if b.id1 = nm then
        vector_distance b1.x b1.y b1.z b2.x b2.y b2.z * dw / dens / 2 else 0) +
      (if b.id2 = nm then
        vector_distance b1.x b1.y b1.z b2.x b2.y b2.z * dw / dens / 2 else 0)
    rw [hx1, hy1, hz1, hx2, hy2, hz2]
  · rw [if_neg ht, if_neg ht]

/-- Names are determined by the mass-erased image. -/
lemma map_name_of_map_eraseMass {ns₁ ns₂ : List RNode}
    (h : ns₁.map eraseMass = ns₂.map eraseMass) :
    ns₁.map RNode.name = ns₂.map RNode.name := by
  have h1 : ns₁.map RNode.name = (ns₁.map eraseMass).map RNode.name := by
    rw [List.map_map]
    rfl
  have h2 : ns₂.map RNode.name = (ns₂.map eraseMass).map RNode.name := by
    rw [List.map_map]
    rfl
  rw [h1, h2, h]

/-- Adding a zero share leaves a node unchanged. -/
lemma getElem?_map_addZero (ns : List RNode) (i : Nat) :
    (ns[i]?).map (fun n => { n with mass := n.mass + 0 }) = ns[i]? := by
  cases h : ns[i]? with
  | none => rfl
  | some n =>
      rw [Option.map_some']
      have hrec : ({ n with mass := n.mass + 0 } : RNode) =
          { n with mass := n.mass } := by rw [add_zero]
      rw [hrec]

/-- The density accumulator equals the running sum over the filtered beams. -/
lemma densityOf_fold (ns : List RNode) :
    ∀ (bs : List RBeam) (a : ℚ),
      bs.foldl
        (fun acc b =>
          if b.type ≠ "VIRTUAL" then
            match beamSqLen ns b with
            | some d => acc + d
            | none => acc
          else acc) a =
      a + ((bs.filter (fun b => b.type ≠ "VIRTUAL")).map
        (fun b => (beamSqLen ns b).getD 0)).sum := by
  intro bs
  induction bs with
  | nil => intro a; simp
  | cons b t ih =>
      intro a
      rw [List.foldl_cons, ih]
      by_cases ht : b.type ≠ "VIRTUAL"
      · cases hbs : beamSqLen ns b with
        | none => simp [List.filter_cons, ht, hbs]
        | some d =>
            simp [List.filter_cons, ht, hbs]
            ring
      · simp [List.filter_cons, ht]

/-- The density is the sum of squared lengths over the non-virtual beams
(zero for an unresolvable beam). -/
lemma densityOf_eq_sum (ns : List RNode) (bs : List RBeam) :
    densityOf ns bs = ((bs.filter (fun b => b.type ≠ "VIRTUAL")).map
      (fun b => (beamSqLen ns b).getD 0)).sum := by
  rw [densityOf, densityOf_fold ns bs 0, zero_add]

/-- The density agrees on lists with the same mass-erased image. -/
lemma densityOf_congr {ns₁ ns₂ : List RNode}
    (h : ns₁.map eraseMass = ns₂.map eraseMass) (bs : List RBeam) :
    densityOf ns₁ bs = densityOf ns₂ bs := by
  have hs : ∀ b, beamSqLen ns₁ b = beamSqLen ns₂ b := fun b => beamSqLen_congr h b
  rw [densityOf, densityOf]
  simp only [hs]

/-- The density used by calculate_masses is the density over the parsed
nodes: initialization does not move nodes. -/
lemma massDensity_eq (r : Rig) : massDensity r = densityOf r.nodes r.beams := by
  rw [massDensity]
  exact densityOf_congr (massInit_map_eraseMass r) r.beams

/-- A sum of shares may be restricted to the non-virtual beams, the others
contribute zero. -/
lemma sum_share_filter (g : RBeam → ℚ)
    (hz : ∀ b : RBeam, ¬ b.type ≠ "VIRTUAL" → g b = 0) :
    ∀ l : List RBeam,
      (l.map g).sum = ((l.filter (fun b => b.type ≠ "VIRTUAL")).map g).sum := by
  intro l
  induction l with
  | nil => rfl
  | cons b t ih =>
      by_cases hp : b.type ≠ "VIRTUAL"
      · simp [List.filter_cons, hp, ih]
      · simp [List.filter_cons, hp, ih, hz b hp]

/-- Pointwise action of the two first-match mass additions of one beam. -/
lemma distribute_pointwise (id1 id2 : String) (half : ℚ) (n : RNode) :
    (if (if n.name = id1 then ({ n with mass := n.mass + half } : RNode) else n).name = id2
     then { (if n.name = id1 then ({ n with mass := n.mass + half } : RNode) else n) with
            mass := (if n.name = id1 then ({ n with mass := n.mass + half } : RNode) else n).mass + half }
     else (if n.name = id1 then ({ n with mass := n.mass + half } : RNode) else n)) =
    { n with mass := n.mass +
      ((if id1 = n.name then half else 0) + (if id2 = n.name then half else 0)) } := by
  by_cases c1 : n.name = id1
  · rw [if_pos c1]
    by_cases c2 : n.name = id2
    · rw [if_pos (show ({ n with mass := n.mass + half } : RNode).name = id2 from c2),
        if_pos c1.symm, if_pos c2.symm]
      show ({ n with mass := (n.mass + half) + half } : RNode) =
        { n with mass := n.mass + (half + half) }
      rw [add_assoc]
    · rw [if_neg (show ¬ ({ n with mass := n.mass + half } : RNode).name = id2 from c2),
        if_pos c1.symm, if_neg (fun h => c2 h.symm)]
      show ({ n with mass := n.mass + half } : RNode) =
        { n with mass := n.mass + (half + 0) }
      rw [add_zero]
  · rw [if_neg c1]
    by_cases c2 : n.name = id2
    · rw [if_pos c2, if_neg (fun h => c1 h.symm), if_pos c2.symm]
      show ({ n with mass := n.mass + half } : RNode) =
        { n with mass := n.mass + (0 + half) }
      rw [zero_add]
    · rw [if_neg c2, if_neg (fun h => c1 h.symm), if_neg (fun h => c2 h.symm)]
      show (n : RNode) = { n with mass := n.mass + (0 + 0) }
      rw [zero_add]
      exact (congrArg (fun v => ({ n with mass := v } : RNode)) (add_zero n.mass)).symm

/-- Entry-wise description of distributing one beam over a rig with unique
node names: each entry gains exactly its share of the beam. -/
lemma distributeBeam_getElem (dw dens : ℚ) (ns : List RNode) (b : RBeam)
    (hnd : (ns.map RNode.name).Nodup) (i : Nat) :
    (distributeBeam dw dens ns b)[i]? = (ns[i]?).map (fun n =>
      { n with mass := n.mass + beamShare ns b n.name dw dens }) := by
  rw [distributeBeam]
  by_cases ht : b.type ≠ "VIRTUAL"
  · rw [if_pos ht]
    cases h1 : findNode ns b.id1 with
    | none =>
        simp only [beamShare, if_pos ht, h1]
        cases h2 : findNode ns b.id2 <;>
          rw [getElem?_map_addZero]
    | some n1 =>
        cases h2 : findNode ns b.id2 with
        | none =>
            simp only [beamShare, if_pos ht, h1, h2]
            rw [getElem?_map_addZero]
        | some n2 =>
            simp only [beamShare, if_pos ht, h1, h2]
            generalize vector_distance n1.x n1.y n1.z n2.x n2.y n2.z * dw / dens / 2 = H
            have hname1 : (modifyFirstByName b.id1
                (fun m => { m with mass := m.mass + H }) ns).map RNode.name =
                ns.map RNode.name :=
              modifyFirstByName_map_name b.id1
                (fun m => { m with mass := m.mass + H }) (fun _ => rfl) ns
            have hnd2 : ((modifyFirstByName b.id1
                (fun m => { m with mass := m.mass + H }) ns).map
                RNode.name).Nodup := by
              rw [hname1]
              exact hnd
            rw [modifyFirstByName_getElem b.id2 _ _ hnd2 i,
              modifyFirstByName_getElem b.id1 _ ns hnd i, Option.map_map]
            refine Option.map_congr ?_
            intro n _
            exact distribute_pointwise b.id1 b.id2 H n
  · rw [if_neg ht]
    have hz : ∀ n : RNode, beamShare ns b n.name dw dens = 0 := by
      intro n
      rw [beamShare, if_neg ht]
    simp only [hz]
    rw [getElem?_map_addZero]

/-- Entry-wise description of the whole distribution loop with unique node
names: each entry gains the sum of its shares over the beams, all shares
taken from the initial node positions. -/
lemma distributeMasses_getElem (dw dens : ℚ) :
    ∀ (bs : List RBeam) (ns : List RNode), (ns.map RNode.name).Nodup →
      ∀ i : Nat,
        (distributeMasses dw dens ns bs)[i]? = (ns[i]?).map (fun n =>
          { n with mass := n.mass +
            (bs.map (fun b => beamShare ns b n.name dw dens)).sum }) := by
  intro bs
  induction bs with
  | nil =>
      intro ns hnd i
      rw [distributeMasses, List.foldl_nil]
      cases h : ns[i]? with
      | none => rfl
      | some n =>
          rw [Option.map_some']
          show some n = some ({ n with mass := n.mass + ([] :
            List ℚ).sum } : RNode)
          rw [List.sum_nil, add_zero]
  | cons b t ih =>
      intro ns hnd i
      rw [distributeMasses, List.foldl_cons]
      have herase := distributeBeam_map_eraseMass dw dens ns b
      have hname : (distributeBeam dw dens ns b).map RNode.name =
          ns.map RNode.name := map_name_of_map_eraseMass herase
      have hnd2 : ((distributeBeam dw dens ns b).map RNode.name).Nodup := by
        rw [hname]
        exact hnd
      have hIH := ih (distributeBeam dw dens ns b) hnd2 i
      rw [distributeMasses] at hIH
      rw [hIH]
      have hsh : ∀ (b' : RBeam) (nm : String),
          beamShare (distributeBeam dw dens ns b) b' nm dw dens =
            beamShare ns b' nm dw dens :=
        fun b' nm => beamShare_congr herase b' nm dw dens
      simp only [hsh]
      rw [distributeBeam_getElem dw dens ns b hnd i, Option.map_map]
      refine Option.map_congr ?_
      intro n _
      show ({ n with mass := (n.mass + beamShare ns b n.name dw dens) +
          (t.map (fun b' => beamShare ns b' n.name dw dens)).sum } : RNode) =
        { n with mass := n.mass +
          ((b :: t).map (fun b' => beamShare ns b' n.name dw dens)).sum }
      rw [List.map_cons, List.sum_cons, add_assoc]

/-- The initialization step realizes the specification-side initial mass for
every node of the rig. -/
lemma initNodeMass_fst_spec (r : Rig) (n : RNode) (hn : n ∈ r.nodes) :
    (initNodeMass (countLoadNodes r.nodes) r.load_weight r.minimass n).1 =
      { n with mass := initMassSpec r n } := by
  rw [initNodeMass, initMassSpec]
  by_cases hb : n.load_bearer = false
  · rw [if_pos hb, if_pos hb]
  · rw [if_neg hb, if_neg hb]
    have hbt : n.load_bearer = true := by
      cases h : n.load_bearer
      · exact absurd h hb
      · rfl
    have hpos : 0 < countLoadNodes r.nodes := countLoadNodes_pos hn hbt
    cases hov : n.override_mass with
    | none => rw [if_pos hpos]
    | some m => rfl

/-- Entry-wise description of the initialized node list against the
specification-side initial masses. -/
lemma massInit_getElem_spec (r : Rig) (i : Nat) :
    (massInit r)[i]? =
      (r.nodes[i]?).map (fun n => { n with mass := initMassSpec r n }) := by
  rw [show massInit r = r.nodes.map (fun n =>
    (initNodeMass (countLoadNodes r.nodes) r.load_weight r.minimass n).1)
    from rfl, List.getElem?_map]
  refine Option.map_congr ?_
  intro n hn
  exact initNodeMass_fst_spec r n (List.getElem?_mem hn)

/-- C1: for a rig with nodes, unique node names, resolvable non-virtual beams
and nonzero density, calculate_masses computes the density as the sum of the
SQUARED beam lengths over the non-virtual beams, and the distribution stage
gives every node its specification initial mass (zero, override, or load
share) plus, per non-virtual beam touching it, squared_length * dry_weight /
density / 2; the final node list is the distributed one clamped to the
minimum mass. -/
theorem calculate_masses_density_and_distribution (r : Rig)
    (hne : r.nodes ≠ [])
    (hnd : (r.nodes.map RNode.name).Nodup)
    (hres : ∀ b ∈ r.beams, b.type ≠ "VIRTUAL" → (beamSqLen r.nodes b).isSome)
    (hdens : densityOf r.nodes r.beams ≠ 0) :
    massDensity r = ((r.beams.filter (fun b => b.type ≠ "VIRTUAL")).map
      (fun b => (beamSqLen r.nodes b).getD 0)).sum ∧
    (r.calculate_masses).nodes =
      (massDistributed r).map (clampNode r.minimass) ∧
    ∀ i : Nat, (massDistributed r)[i]? = (r.nodes[i]?).map (fun n =>
      { n with mass := initMassSpec r n +
        ((r.beams.filter (fun b => b.type ≠ "VIRTUAL")).map
          (fun b => beamShare r.nodes b n.name r.dry_weight (massDensity r))).sum }) := by
  have hdens' : massDensity r ≠ 0 := by
    rw [massDensity_eq]
    exact hdens
  refine ⟨?_, ?_, ?_⟩
  · rw [massDensity_eq, densityOf_eq_sum]
  · rw [calc_masses_pos_density_eq r hne hdens']
  · intro i
    have hinitname : (massInit r).map RNode.name = r.nodes.map RNode.name :=
      map_name_of_map_eraseMass (massInit_map_eraseMass r)
    have hndI : ((massInit r).map RNode.name).Nodup := by
      rw [hinitname]
      exact hnd
    have happ := distributeMasses_getElem r.dry_weight (massDensity r) r.beams
      (massInit r) hndI i
    rw [show massDistributed r = distributeMasses r.dry_weight (massDensity r)
      (massInit r) r.beams from rfl, happ]
    have hsh : ∀ (b : RBeam) (nm : String),
        beamShare (massInit r) b nm r.dry_weight (massDensity r) =
          beamShare r.nodes b nm r.dry_weight (massDensity r) :=
      fun b nm => beamShare_congr (massInit_map_eraseMass r) b nm _ _
    simp only [hsh]
    rw [massInit_getElem_spec r i, Option.map_map]
    refine Option.map_congr ?_
    intro n _
    show ({ n with mass := initMassSpec r n +
        (r.beams.map (fun b =>
          beamShare r.nodes b n.name r.dry_weight (massDensity r))).sum } : RNode) =
      { n with mass := initMassSpec r n +
        ((r.beams.filter (fun b => b.type ≠ "VIRTUAL")).map (fun b =>
          beamShare r.nodes b n.name r.dry_weight (massDensity r))).sum }
    rw [sum_share_filter
      (fun b => beamShare r.nodes b n.name r.dry_weight (massDensity r))
      (fun b hb => by
        simp only [beamShare]
        rw [if_neg hb]) r.beams]

/-- Witness for C1 on the unit-beam rig: the computed density is the squared
length sum over its single non-virtual beam. -/
theorem calculate_masses_density_and_distribution_witness :
    massDensity rigUnitBeam =
      ((rigUnitBeam.beams.filter (fun b => b.type ≠ "VIRTUAL")).map
        (fun b => (beamSqLen rigUnitBeam.nodes b).getD 0)).sum :=
  (calculate_masses_density_and_distribution rigUnitBeam (by decide) (by decide)
    (by decide)
    (by
      rw [← massDensity_eq rigUnitBeam, massDensity_rigUnitBeam]
      norm_num)).1
